import Mathlib

/-!
Shallow embedding of `epic-creator` (src/main.go): a batch JIRA issue
creator. Pure data is translated to Lean structures; the JIRA client is an
oracle of pure functions; the `createIssues` loop is a fold over tickets
threading an explicit `RunState` (project cache, render buffers, stderr
diagnostics, remote-call trace, created issues). Go runtime panics (index
out of range on an empty slice, assignment to an entry in a nil map) are
modelled as an explicit `panicked` outcome. Go maps are association lists
with replace-on-insert; a `nil` Go map is `Option.none`.
-/

/-- Model of a Go `interface{}` value decoded from JSON (a ticket param). -/
inductive JVal where
  | str (s : String)
  | num (n : Int)
  | bool (b : Bool)
  | null
  | arr (xs : List JVal)
  | obj (fields : List (String × JVal))

mutual
/-- Default Go `%v` formatting of a param value, as `text/template` prints it. -/
def jvalFormat : JVal → String
  | .str s => s
  | .num n => toString n
  | .bool b => if b then "true" else "false"
  | .null => "<nil>"
  | .arr xs => "[" ++ jvalFormatList xs ++ "]"
  | .obj fs => "map[" ++ jvalFormatObj fs ++ "]"

/-- Formatting of the elements of a JSON array, space-separated. -/
def jvalFormatList : List JVal → String
  | [] => ""
  | [x] => jvalFormat x
  | x :: xs => jvalFormat x ++ " " ++ jvalFormatList xs

/-- Formatting of the entries of a JSON object, `k:v` space-separated. -/
def jvalFormatObj : List (String × JVal) → String
  | [] => ""
  | [(k, v)] => k ++ ":" ++ jvalFormat v
  | (k, v) :: xs => k ++ ":" ++ jvalFormat v ++ " " ++ jvalFormatObj xs
end

/-- Lookup in a Go map modelled as an association list. -/
def getAssoc {β : Type _} : List (String × β) → String → Option β
  | [], _ => none
  | (k', v) :: rest, k => if k' = k then some v else getAssoc rest k

/-- Go map assignment `m[k] = v`: replaces an existing binding, else appends. -/
def putAssoc {β : Type _} : List (String × β) → String → β → List (String × β)
  | [], k, v => [(k, v)]
  | (k', v') :: rest, k, v =>
      if k' = k then (k, v) :: rest else (k', v') :: putAssoc rest k v

/-- Go's `type Ticket struct { Project string; Params map[string]interface{};
CustomEpicField string }`. `Params = none` models a nil Go map (the zero
value left by `json.Unmarshal` when the `params` key is absent). -/
structure Ticket where
  Project : String
  Params : Option (List (String × JVal))
  CustomEpicField : String

/-- One element of a parsed JSON ticket declaration, as `json.Unmarshal`
sees it: each key may be present or absent. -/
structure TicketDecl where
  project : String
  params : Option (List (String × JVal))
  custom_epic_field : Option String

/-- The `json.Unmarshal` decoding of one ticket object into `Ticket`: an absent
key leaves the Go zero value — a nil map for `Params` (`none`), `""` for
`CustomEpicField`. -/
def decodeTicket (d : TicketDecl) : Ticket :=
  { Project := d.project
    Params := d.params
    CustomEpicField := d.custom_epic_field.getD "" }

/-- Model of `loadTickets` after a successful read and JSON-list parse: unmarshal
each declaration (src/main.go `loadTickets`). -/
def loadTickets (decls : List TicketDecl) : List Ticket :=
  decls.map decodeTicket

structure IssueType where
  name : String

/-- The `jira.Project` metadata fields this program reads (key and issue types). -/
structure Project where
  key : String
  issueTypes : List IssueType

/-- The `jira.Epic` as built by `getEpic`: numeric id, self link, key. -/
structure Epic where
  id : Int
  self : String
  key : String

/-- The part of a `jira.Issue` that `getEpic` reads from `client.Issue.Get`:
textual id, self link, key, and the issue type name (`Fields.Type.Name`). -/
structure IssueSummary where
  id : String
  self : String
  key : String
  typeName : String

/-- Diagnostic context carried by a failed JIRA request: the outbound
request and the response body, as printed by `jiraAPIRequestErrorHandler`. -/
structure ReqError where
  request : String
  responseBody : String

/-- The `jira.IssueFields` as assembled by `createIssues`: summary, description,
type, project, plus exactly one epic-link mechanism — `Unknowns` holds the
single-entry `tcontainer.MarshalMap{customEpicField: epic.Key}`, `Epic` the
standard epic-link pointer. -/
structure IssueFields where
  Summary : String
  Description : String
  «Type» : IssueType
  Project : Project
  Unknowns : Option (String × String)
  Epic : Option Epic

/-- The issue returned by `client.Issue.Create` on success. -/
structure CreatedIssue where
  key : String
  fields : IssueFields

/-- One remote JIRA call issued by the run. -/
inductive RemoteCall where
  | getProject (key : String)
  | createIssue (fields : IssueFields)

/-- A stderr diagnostic emitted by the run (the skip message of
src/main.go lines 94-101, which receives the project and the ticket). -/
inductive Diag where
  | skipNoIssueTypes (project : String) (ticket : Ticket)

/-- The mutable state threaded through the `createIssues` loop: the
project cache, the two render buffers, the stderr log, the trace of remote
calls, and the issues created so far. -/
structure RunState where
  projectCache : List (String × Project)
  summaryBuf : String
  descriptionBuf : String
  stderrLog : List Diag
  calls : List RemoteCall
  created : List CreatedIssue

/-- The state at the top of `createIssues`: empty cache, empty buffers. -/
def RunState.init : RunState :=
  { projectCache := []
    summaryBuf := ""
    descriptionBuf := ""
    stderrLog := []
    calls := []
    created := [] }

/-- The JIRA client capability set used by the program, as pure oracles. -/
structure Client where
  issueGet : String → Except ReqError IssueSummary
  projectGet : String → Except ReqError Project
  issueCreate : IssueFields → Except ReqError CreatedIssue

/-- One action of a compiled `text/template`: literal text, `{{ .Project }}`,
or `{{ index .Params "key" }}` — the access patterns documented by the
program's template files. -/
inductive TmplElem where
  | text (s : String)
  | fieldProject
  | indexParams (key : String)

/-- A compiled template is its sequence of actions. -/
def Template := List TmplElem

/-- Evaluate one template action against a ticket. `index` on a missing key
or on a nil map yields the zero value, printed as `<no value>`. -/
def renderElem (t : Ticket) : TmplElem → String
  | .text s => s
  | .fieldProject => t.Project
  | .indexParams k =>
      match t.Params with
      | none => "<no value>"
      | some m =>
          match getAssoc m k with
          | some v => jvalFormat v
          | none => "<no value>"

/-- Model of `Template.Execute(buf, ticket)`: write the rendering of each action in
order into the buffer, returning the buffer's new contents. -/
def executeTmpl (tmpl : Template) (t : Ticket) (buf : String) : String :=
  tmpl.foldl (fun b e => b ++ renderElem t e) buf

/-- The full rendering of a template against a ticket (execution into an
empty buffer). -/
def render (tmpl : Template) (t : Ticket) : String :=
  executeTmpl tmpl t ""

/-- The arguments of `createIssues` other than the ticket list. -/
structure Ctx where
  client : Client
  summaryTemplate : Template
  descriptionTemplate : Template
  epic : Epic

/-- The write `ticket.Params["epic"] = epic.Key` (src/main.go line 104): the only
write to caller-supplied ticket data. Writing into a nil Go map panics,
modelled as `none`. -/
def injectEpic (ticket : Ticket) (epic : Epic) : Option Ticket :=
  match ticket.Params with
  | none => none
  | some m => some { ticket with Params := some (putAssoc m "epic" (.str epic.key)) }

/-- The `jira.IssueFields` literal of src/main.go lines 115-128: base fields
from the buffers, then exactly one of `Unknowns` (custom epic field) or
`Epic` (standard link) depending on `ticket.CustomEpicField`. -/
def assembleFields (summary description : String) (issueType : IssueType)
    (project : Project) (ticket : Ticket) (epic : Epic) : IssueFields :=
  let base : IssueFields :=
    { Summary := summary
      Description := description
      «Type» := issueType
      Project := project
      Unknowns := none
      Epic := none }
  if ticket.CustomEpicField ≠ "" then
    { base with Unknowns := some (ticket.CustomEpicField, epic.key) }
  else
    { base with Epic := some epic }

/-- Result of the cache-or-fetch block at the top of the loop body. -/
inductive CacheResult where
  | ok (st : RunState) (project : Project)
  | reqError (st : RunState) (e : ReqError)

/-- Model of src/main.go lines 84-93: consult `projectCache`; on a miss call
`client.Project.Get` (recorded in the trace), abort on error, else cache the
result; then read the (now present) cache entry. -/
def cacheFetch (projectGet : String → Except ReqError Project)
    (st : RunState) (key : String) : CacheResult :=
  match getAssoc st.projectCache key with
  | some p => .ok st p
  | none =>
      match projectGet key with
      | .error e => .reqError { st with calls := st.calls ++ [.getProject key] } e
      | .ok p =>
          .ok { st with
                  projectCache := putAssoc st.projectCache key p
                  calls := st.calls ++ [.getProject key] } p

/-- Outcome of processing one ticket (one iteration of the loop). -/
inductive StepResult where
  | ok (st : RunState)
  | reqError (e : ReqError) (st : RunState)
  | panicked (msg : String) (st : RunState)

def StepResult.state : StepResult → RunState
  | .ok st => st
  | .reqError _ st => st
  | .panicked _ st => st

/-- One iteration of the `createIssues` loop (src/main.go lines 81-141):
reset both buffers; resolve the project through the cache; if the project
has no issue types, print the skip diagnostic — and then, with no
`continue`, still evaluate `project.IssueTypes[0]`, which panics on an
empty slice; write the epic key into the ticket's params (panics on a nil
map); execute both templates into the buffers; assemble the issue fields;
call `client.Issue.Create`, aborting on error. -/
def stepTicket (ctx : Ctx) (st : RunState) (ticket : Ticket) : StepResult :=
  let st0 := { st with summaryBuf := "", descriptionBuf := "" }
  match cacheFetch ctx.client.projectGet st0 ticket.Project with
  | .reqError st1 e => .reqError e st1
  | .ok st1 project =>
      let st2 :=
        if project.issueTypes.isEmpty then
          { st1 with stderrLog := st1.stderrLog ++ [.skipNoIssueTypes ticket.Project ticket] }
        else st1
      match project.issueTypes with
      | [] => .panicked "runtime error: index out of range" st2
      | issueType :: _ =>
          match injectEpic ticket ctx.epic with
          | none => .panicked "assignment to entry in nil map" st2
          | some t2 =>
              let st3 := { st2 with summaryBuf := executeTmpl ctx.summaryTemplate t2 st2.summaryBuf }
              let st4 := { st3 with descriptionBuf := executeTmpl ctx.descriptionTemplate t2 st3.descriptionBuf }
              let fields :=
                assembleFields st4.summaryBuf st4.descriptionBuf issueType project t2 ctx.epic
              let st5 := { st4 with calls := st4.calls ++ [.createIssue fields] }
              match ctx.client.issueCreate fields with
              | .error e => .reqError e st5
              | .ok created => .ok { st5 with created := st5.created ++ [created] }

/-- Outcome of the whole `createIssues` call. -/
inductive RunResult where
  | ok (st : RunState)
  | reqError (e : ReqError) (st : RunState)
  | panicked (msg : String) (st : RunState)

def RunResult.state : RunResult → RunState
  | .ok st => st
  | .reqError _ st => st
  | .panicked _ st => st

/-- The `for _, ticket := range tickets` loop: strictly sequential, each
iteration fully processed before the next; the first error or panic aborts
the rest. -/
def runTickets (ctx : Ctx) (st : RunState) : List Ticket → RunResult
  | [] => .ok st
  | t :: ts =>
      match stepTicket ctx st t with
      | .ok st' => runTickets ctx st' ts
      | .reqError e st' => .reqError e st'
      | .panicked m st' => .panicked m st'

/-- Model of `createIssues(client, summaryTemplate, descriptionTemplate, tickets,
epic)` (src/main.go lines 70-143). -/
def createIssues (client : Client) (summaryTemplate descriptionTemplate : Template)
    (tickets : List Ticket) (epic : Epic) : RunResult :=
  runTickets ⟨client, summaryTemplate, descriptionTemplate, epic⟩ RunState.init tickets

/-- Result of `getEpic` (src/main.go lines 145-172): a request failure
routed through the error handler, the `(nil, nil)` return when the issue's
type name is not `"Epic"`, a `strconv.Atoi` failure on the textual id, or
the built `jira.Epic`. -/
inductive GetEpicResult where
  | reqErr (e : ReqError)
  | notEpic
  | atoiErr
  | ok (epic : Epic)

/-- Model of `strconv.Atoi` as used on `issue.ID` (immaterial to every claim except
that failure is propagated): parse an optionally signed decimal integer. -/
def atoiGo (s : String) : Option Int :=
  s.toInt?

/-- Model of `getEpic`: look the identifier up requesting only the issue type; on
request error, return it through the handler; if the type name is not
`"Epic"`, return `(nil, nil)` (no epic, no error); else parse the id and
build the epic. -/
def getEpic (issueGet : String → Except ReqError IssueSummary)
    (epicName : String) : GetEpicResult :=
  match issueGet epicName with
  | .error e => .reqErr e
  | .ok issue =>
      if issue.typeName ≠ "Epic" then .notEpic
      else
        match atoiGo issue.id with
        | none => .atoiErr
        | some id => .ok { id := id, self := issue.self, key := issue.key }

/-- How `main` ends once tickets are loaded: a panic on a failed epic
lookup, a panic on a bad id, the distinct "Found ... but it was not an
epic" abort when `getEpic` returned a nil epic with a nil error, or the
result of `createIssues`. -/
inductive MainOutcome where
  | panicReqErr (e : ReqError)
  | panicAtoiErr
  | notAnEpicAbort (epicName : String)
  | ran (r : RunResult)

/-- The tail of `main` (src/main.go lines 245-268): resolve the epic, panic
on error, report-and-panic when the epic is nil, else run `createIssues`. -/
def mainRun (client : Client) (summaryTemplate descriptionTemplate : Template)
    (epicName : String) (tickets : List Ticket) : MainOutcome :=
  match getEpic client.issueGet epicName with
  | .reqErr e => .panicReqErr e
  | .atoiErr => .panicAtoiErr
  | .notEpic => .notAnEpicAbort epicName
  | .ok epic => .ran (createIssues client summaryTemplate descriptionTemplate tickets epic)

/-- The `createIssue` payloads submitted during a run, in order. -/
def createCallsOf (calls : List RemoteCall) : List IssueFields :=
  calls.filterMap fun c =>
    match c with
    | .createIssue f => some f
    | _ => none

/-- The keys of the `getProject` calls issued during a run, in order. -/
def projectCallKeys (calls : List RemoteCall) : List String :=
  calls.filterMap fun c =>
    match c with
    | .getProject k => some k
    | _ => none

/-- The `createIssue` payloads submitted over a whole `main` run: none at
all when `main` aborts before `createIssues`. -/
def MainOutcome.createCalls : MainOutcome → List IssueFields
  | .ran r => createCallsOf r.state.calls
  | _ => []


/-! ### Association-list and string lemmas -/

theorem getAssoc_putAssoc_self {β : Type _} (m : List (String × β)) (k : String) (v : β) :
    getAssoc (putAssoc m k v) k = some v := by
  induction m with
  | nil => simp [putAssoc, getAssoc]
  | cons hd tl ih =>
      obtain ⟨k2, v2⟩ := hd
      by_cases h2 : k2 = k <;> simp [putAssoc, getAssoc, h2, ih]

theorem getAssoc_putAssoc_ne {β : Type _} (m : List (String × β)) (k k' : String) (v : β)
    (h : k' ≠ k) : getAssoc (putAssoc m k v) k' = getAssoc m k' := by
  have hne : k ≠ k' := fun hh => h hh.symm
  induction m with
  | nil => simp [putAssoc, getAssoc, hne]
  | cons hd tl ih =>
      obtain ⟨k2, v2⟩ := hd
      by_cases h2 : k2 = k
      · subst h2
        simp [putAssoc, getAssoc, hne]
      · simp [putAssoc, getAssoc, h2, ih]

theorem str_empty_append (s : String) : "" ++ s = s := rfl

theorem executeTmpl_append (tmpl : Template) (t : Ticket) (buf : String) :
    executeTmpl tmpl t buf = buf ++ render tmpl t := by
  induction tmpl generalizing buf with
  | nil =>
      show buf = buf ++ ""
      exact (String.append_empty buf).symm
  | cons e es ih =>
      show executeTmpl es t (buf ++ renderElem t e) = buf ++ render (.cons e es) t
      rw [ih]
      show buf ++ renderElem t e ++ render es t
        = buf ++ executeTmpl es t ("" ++ renderElem t e)
      rw [ih ("" ++ renderElem t e), str_empty_append, String.append_assoc]

/-! ### Claim theorems: rendering, payload assembly, params mutation -/

/-- C10: the only mutation of caller-supplied ticket data in the loop is
`ticket.Params["epic"] = epic.Key`, modelled by `injectEpic`. For a ticket
whose params map is non-nil, the mutated ticket keeps `Project` and
`CustomEpicField` unchanged, the shared params map (visible to the caller,
since Go maps are shared rather than copied) binds `"epic"` to the resolved
epic's key, and every entry with a key other than `"epic"` is unchanged. -/
theorem injectEpic_frame (t : Ticket) (epic : Epic) (m : List (String × JVal))
    (h : t.Params = some m) :
    injectEpic t epic
      = some ⟨t.Project, some (putAssoc m "epic" (.str epic.key)), t.CustomEpicField⟩ ∧
    getAssoc (putAssoc m "epic" (.str epic.key)) "epic" = some (.str epic.key) ∧
    ∀ k, k ≠ "epic" →
      getAssoc (putAssoc m "epic" (.str epic.key)) k = getAssoc m k := by
  obtain ⟨P, Ps, C⟩ := t
  cases h
  exact ⟨rfl, getAssoc_putAssoc_self m "epic" _,
    fun k hk => getAssoc_putAssoc_ne m "epic" k _ hk⟩

/-- Witness for C10 at a concrete ticket carrying a stale `"epic"` param
and an unrelated `"a"` param. -/
theorem injectEpic_frame_witness :
    injectEpic ⟨"PROJ", some [("a", .num 1), ("epic", .str "OLD")], "cf"⟩ ⟨7, "s", "EP-1"⟩
      = some ⟨"PROJ",
          some (putAssoc [("a", .num 1), ("epic", .str "OLD")] "epic" (.str "EP-1")), "cf"⟩ ∧
    getAssoc (putAssoc [("a", JVal.num 1), ("epic", JVal.str "OLD")] "epic" (.str "EP-1")) "a"
      = some (.num 1) := by
  have h := injectEpic_frame ⟨"PROJ", some [("a", .num 1), ("epic", .str "OLD")], "cf"⟩
    ⟨7, "s", "EP-1"⟩ [("a", .num 1), ("epic", .str "OLD")] rfl
  exact ⟨h.1, (h.2.2 "a" (by decide)).trans rfl⟩

/-- C6: for any ticket with a non-nil params map, the render context built
by the loop (`injectEpic`) binds params key `"epic"` to the resolved epic's
key — even when the caller declared a different `params.epic` — and a
template reading `index .Params "epic"` renders exactly that key. -/
theorem epicParam_override (t : Ticket) (epic : Epic) (m : List (String × JVal))
    (h : t.Params = some m) :
    injectEpic t epic
      = some { t with Params := some (putAssoc m "epic" (.str epic.key)) } ∧
    getAssoc (putAssoc m "epic" (.str epic.key)) "epic" = some (.str epic.key) ∧
    render [.indexParams "epic"]
        { t with Params := some (putAssoc m "epic" (.str epic.key)) } = epic.key := by
  obtain ⟨P, Ps, C⟩ := t
  cases h
  refine ⟨rfl, getAssoc_putAssoc_self m "epic" _, ?_⟩
  show executeTmpl [.indexParams "epic"] _ "" = epic.key
  simp [executeTmpl, List.foldl, renderElem, getAssoc_putAssoc_self, jvalFormat,
    str_empty_append]

/-- Witness for C6: the caller declared `params.epic = "CALLER"`; the
render context nevertheless binds `"epic"` to the resolved key `"EP-9"`. -/
theorem epicParam_override_witness :
    injectEpic ⟨"P", some [("epic", .str "CALLER")], ""⟩ ⟨3, "s", "EP-9"⟩
      = some ⟨"P", some (putAssoc [("epic", .str "CALLER")] "epic" (.str "EP-9")), ""⟩ ∧
    getAssoc (putAssoc [("epic", JVal.str "CALLER")] "epic" (.str "EP-9")) "epic"
      = some (.str "EP-9") ∧
    render [.indexParams "epic"]
        ⟨"P", some (putAssoc [("epic", .str "CALLER")] "epic" (.str "EP-9")), ""⟩ = "EP-9" :=
  epicParam_override ⟨"P", some [("epic", .str "CALLER")], ""⟩ ⟨3, "s", "EP-9"⟩
    [("epic", .str "CALLER")] rfl

/-- C7: the assembled payload uses exactly one epic-link mechanism — the
custom-field variant (`Unknowns` holding the custom field name mapped to
the epic's key, `Epic` left nil) exactly when the ticket's
`CustomEpicField` is non-empty, and the standard epic-link field (`Epic`
set, `Unknowns` nil) exactly when it is empty. -/
theorem assembleFields_epicLink (summary description : String) (issueType : IssueType)
    (project : Project) (t : Ticket) (epic : Epic) :
    ((assembleFields summary description issueType project t epic).Unknowns
        = some (t.CustomEpicField, epic.key) ∧
      (assembleFields summary description issueType project t epic).Epic = none
      ↔ t.CustomEpicField ≠ "") ∧
    ((assembleFields summary description issueType project t epic).Epic = some epic ∧
      (assembleFields summary description issueType project t epic).Unknowns = none
      ↔ t.CustomEpicField = "") := by
  by_cases h : t.CustomEpicField = "" <;> simp [assembleFields, h]

/-- C9: template execution is modelled as a pure function of the compiled
template and the context, so re-executing is side-effect free: executing
into an empty buffer yields `render`, and executing the same template
against the same context a second time appends output identical to the
first execution's. -/
theorem render_idempotent (tmpl : Template) (t : Ticket) (buf : String) :
    executeTmpl tmpl t "" = render tmpl t ∧
    executeTmpl tmpl t (executeTmpl tmpl t buf)
      = buf ++ render tmpl t ++ render tmpl t := by
  refine ⟨rfl, ?_⟩
  rw [executeTmpl_append tmpl t buf, executeTmpl_append]

/-! ### Cache invariant (C4) -/

/-- Keys already looked up remotely: every `getProject` call so far has a
distinct key and its result is in the cache. -/
def CacheInv (st : RunState) : Prop :=
  (projectCallKeys st.calls).Nodup ∧
  ∀ k ∈ projectCallKeys st.calls, (getAssoc st.projectCache k).isSome

theorem projectCallKeys_append (a b : List RemoteCall) :
    projectCallKeys (a ++ b) = projectCallKeys a ++ projectCallKeys b := by
  simp [projectCallKeys, List.filterMap_append]

theorem projectCallKeys_createIssue (a : List RemoteCall) (f : IssueFields) :
    projectCallKeys (a ++ [.createIssue f]) = projectCallKeys a := by
  simp [projectCallKeys_append, projectCallKeys, List.filterMap]

theorem projectCallKeys_getProject (a : List RemoteCall) (k : String) :
    projectCallKeys (a ++ [.getProject k]) = projectCallKeys a ++ [k] := by
  simp [projectCallKeys_append, projectCallKeys, List.filterMap]

theorem cacheInv_uncalledKey (st : RunState) (key : String) (h : CacheInv st)
    (hga : getAssoc st.projectCache key = none) :
    key ∉ projectCallKeys st.calls := by
  intro hmem
  have := h.2 key hmem
  rw [hga] at this
  simp at this

theorem nodup_append_single {α : Type _} (l : List α) (a : α)
    (hl : l.Nodup) (ha : a ∉ l) : (l ++ [a]).Nodup := by
  simp [List.nodup_append, hl, ha]

theorem cacheFetch_err_nodup (pg : String → Except ReqError Project)
    (st st' : RunState) (key : String) (e : ReqError)
    (h : cacheFetch pg st key = .reqError st' e) (hinv : CacheInv st) :
    (projectCallKeys st'.calls).Nodup := by
  cases hga : getAssoc st.projectCache key with
  | some p0 => simp [cacheFetch, hga] at h
  | none =>
      cases hpg : pg key with
      | ok p1 => simp [cacheFetch, hga, hpg] at h
      | error e1 =>
          simp [cacheFetch, hga, hpg] at h
          obtain ⟨hst, _⟩ := h
          rw [← hst]
          rw [projectCallKeys_getProject]
          exact nodup_append_single _ _ hinv.1 (cacheInv_uncalledKey st key hinv hga)

theorem cacheFetch_ok_inv (pg : String → Except ReqError Project)
    (st st' : RunState) (key : String) (p : Project)
    (h : cacheFetch pg st key = .ok st' p) (hinv : CacheInv st) :
    CacheInv st' := by
  cases hga : getAssoc st.projectCache key with
  | some p0 =>
      simp [cacheFetch, hga] at h
      rw [← h.1]
      exact hinv
  | none =>
      cases hpg : pg key with
      | error e1 => simp [cacheFetch, hga, hpg] at h
      | ok p1 =>
          simp [cacheFetch, hga, hpg] at h
          rw [← h.1]
          constructor
          · rw [projectCallKeys_getProject]
            exact nodup_append_single _ _ hinv.1 (cacheInv_uncalledKey st key hinv hga)
          · intro k hk
            rw [projectCallKeys_getProject] at hk
            by_cases hkey : k = key
            · subst hkey
              simp [getAssoc_putAssoc_self]
            · rw [getAssoc_putAssoc_ne st.projectCache key k p1 hkey]
              rcases List.mem_append.mp hk with hk | hk
              · exact hinv.2 k hk
              · simp at hk
                exact absurd hk hkey

theorem stepTicket_inv (ctx : Ctx) (st : RunState) (t : Ticket) (hinv : CacheInv st) :
    (projectCallKeys (stepTicket ctx st t).state.calls).Nodup ∧
    ∀ st', stepTicket ctx st t = .ok st' → CacheInv st' := by
  have hinv0 : CacheInv { st with summaryBuf := "", descriptionBuf := "" } := hinv
  cases hcf : cacheFetch ctx.client.projectGet
      { st with summaryBuf := "", descriptionBuf := "" } t.Project with
  | reqError st1 e =>
      have hn := cacheFetch_err_nodup _ _ _ _ _ hcf hinv0
      constructor
      · simp [stepTicket, hcf, StepResult.state]
        exact hn
      · intro st' h
        simp [stepTicket, hcf] at h
  | ok st1 project =>
      have hinv1 := cacheFetch_ok_inv _ _ _ _ _ hcf hinv0
      cases hIT : project.issueTypes with
      | nil =>
          constructor
          · simp [stepTicket, hcf, hIT, StepResult.state]
            exact hinv1.1
          · intro st' h
            simp [stepTicket, hcf, hIT] at h
      | cons it rest =>
          cases hinj : injectEpic t ctx.epic with
          | none =>
              constructor
              · simp [stepTicket, hcf, hIT, hinj, StepResult.state]
                exact hinv1.1
              · intro st' h
                simp [stepTicket, hcf, hIT, hinj] at h
          | some t2 =>
              constructor
              · simp [stepTicket, hcf, hIT, hinj]
                split
                · simp [StepResult.state, projectCallKeys_createIssue]
                  exact hinv1.1
                · simp [StepResult.state, projectCallKeys_createIssue]
                  exact hinv1.1
              · intro st' h
                simp [stepTicket, hcf, hIT, hinj] at h
                split at h
                · exact StepResult.noConfusion h
                · cases h
                  constructor
                  · simp [projectCallKeys_createIssue]
                    exact hinv1.1
                  · intro k hk
                    simp only [projectCallKeys_createIssue] at hk
                    exact hinv1.2 k hk

theorem runTickets_nodup (ctx : Ctx) (ts : List Ticket) :
    ∀ st : RunState, CacheInv st →
      (projectCallKeys (runTickets ctx st ts).state.calls).Nodup := by
  induction ts with
  | nil => intro st h; exact h.1
  | cons t ts ih =>
      intro st h
      cases hstep : stepTicket ctx st t with
      | ok st' =>
          simp only [runTickets, hstep]
          exact ih st' ((stepTicket_inv ctx st t h).2 st' hstep)
      | reqError e st' =>
          simp only [runTickets, hstep, RunResult.state]
          have := (stepTicket_inv ctx st t h).1
          rw [hstep] at this
          exact this
      | panicked m st' =>
          simp only [runTickets, hstep, RunResult.state]
          have := (stepTicket_inv ctx st t h).1
          rw [hstep] at this
          exact this

/-- C4: over any whole run of `createIssues`, the keys of the `getProject`
calls in the remote trace are pairwise distinct — the remote project lookup
happens at most once per distinct project key — and a cache hit returns the
cached `Project` with no new remote call and an unchanged state. -/
theorem createIssues_getProject_once (client : Client)
    (summaryTemplate descriptionTemplate : Template)
    (tickets : List Ticket) (epic : Epic) :
    (projectCallKeys
        (createIssues client summaryTemplate descriptionTemplate tickets epic).state.calls).Nodup ∧
    ∀ (st : RunState) (key : String) (p : Project),
      getAssoc st.projectCache key = some p →
        cacheFetch client.projectGet st key = .ok st p := by
  constructor
  · exact runTickets_nodup _ tickets RunState.init ⟨List.nodup_nil, by intro k hk; simp [projectCallKeys, RunState.init] at hk⟩
  · intro st key p h
    simp [cacheFetch, h]

/-! ### Sequencing and abort-on-failure (C5) -/

def CacheResult.state : CacheResult → RunState
  | .ok st _ => st
  | .reqError st _ => st

theorem cacheFetch_created (pg : String → Except ReqError Project)
    (st : RunState) (key : String) :
    (cacheFetch pg st key).state.created = st.created := by
  cases hga : getAssoc st.projectCache key with
  | some p => simp [cacheFetch, hga, CacheResult.state]
  | none => cases hpg : pg key <;> simp [cacheFetch, hga, hpg, CacheResult.state]

theorem stepTicket_err_created (ctx : Ctx) (st : RunState) (t : Ticket)
    (e : ReqError) (stf : RunState)
    (h : stepTicket ctx st t = .reqError e stf) : stf.created = st.created := by
  cases hcf : cacheFetch ctx.client.projectGet
      { st with summaryBuf := "", descriptionBuf := "" } t.Project with
  | reqError st1 e1 =>
      have hc := cacheFetch_created ctx.client.projectGet
        { st with summaryBuf := "", descriptionBuf := "" } t.Project
      rw [hcf] at hc
      simp [CacheResult.state] at hc
      simp [stepTicket, hcf] at h
      rw [← h.2]
      exact hc
  | ok st1 project =>
      have hc := cacheFetch_created ctx.client.projectGet
        { st with summaryBuf := "", descriptionBuf := "" } t.Project
      rw [hcf] at hc
      simp [CacheResult.state] at hc
      cases hIT : project.issueTypes with
      | nil => simp [stepTicket, hcf, hIT] at h
      | cons it rest =>
          cases hinj : injectEpic t ctx.epic with
          | none => simp [stepTicket, hcf, hIT, hinj] at h
          | some t2 =>
              simp [stepTicket, hcf, hIT, hinj] at h
              split at h
              · simp at h
                rw [← h.2]
                exact hc
              · exact StepResult.noConfusion h

theorem runTickets_append_ok (ctx : Ctx) (l₁ l₂ : List Ticket) :
    ∀ st st₁ : RunState, runTickets ctx st l₁ = .ok st₁ →
      runTickets ctx st (l₁ ++ l₂) = runTickets ctx st₁ l₂ := by
  induction l₁ with
  | nil =>
      intro st st₁ h
      simp only [runTickets] at h
      injection h with h
      subst h
      rw [List.nil_append]
  | cons t ts ih =>
      intro st st₁ h
      rw [List.cons_append]
      cases hstep : stepTicket ctx st t with
      | ok st' =>
          simp only [runTickets, hstep] at h ⊢
          exact ih st' st₁ h
      | reqError e st' =>
          simp only [runTickets, hstep] at h
          exact RunResult.noConfusion h
      | panicked m st' =>
          simp only [runTickets, hstep] at h
          exact RunResult.noConfusion h

/-- C5: tickets are processed strictly sequentially in input order; when a
remote call made while processing the k-th ticket fails (project lookup or
issue creation, surfaced as `reqError`), the whole run's result is exactly
that abort: the issues created for the tickets before k remain the created
issues of the run (no rollback), and — the run state being the state at the
failing step — no `createIssue` call happens for any ticket after k. -/
theorem run_abortOnRemoteFailure (ctx : Ctx) (tickets : List Ticket) (k : Nat)
    (hk : k < tickets.length) (st stf : RunState) (e : ReqError)
    (hpre : runTickets ctx RunState.init (tickets.take k) = .ok st)
    (hfail : stepTicket ctx st (tickets.get ⟨k, hk⟩) = .reqError e stf) :
    runTickets ctx RunState.init tickets = .reqError e stf ∧
    stf.created = st.created := by
  constructor
  · conv_lhs => rw [← List.take_append_drop k tickets]
    rw [runTickets_append_ok ctx _ _ _ _ hpre]
    rw [List.drop_eq_getElem_cons hk]
    simp only [runTickets]
    rw [show tickets[k] = tickets.get ⟨k, hk⟩ from rfl]
    rw [hfail]
  · exact stepTicket_err_created _ _ _ _ _ hfail

/-! ### Epic resolution (C2) -/

/-- C2: when the identifier lookup succeeds but the issue's type name is not
`"Epic"`, the run aborts through the dedicated not-an-epic outcome — a
constructor distinct from the request-failure outcome, naming the looked-up
identifier — and zero `createIssue` calls occur for the whole run. -/
theorem notAnEpic_distinctAbort (client : Client) (sT dT : Template) (name : String)
    (tickets : List Ticket) (s : IssueSummary)
    (hget : client.issueGet name = .ok s) (hty : s.typeName ≠ "Epic") :
    mainRun client sT dT name tickets = .notAnEpicAbort name ∧
    (mainRun client sT dT name tickets).createCalls = [] ∧
    ∀ e : ReqError, mainRun client sT dT name tickets ≠ .panicReqErr e := by
  have h1 : getEpic client.issueGet name = .notEpic := by
    simp [getEpic, hget, hty]
  refine ⟨?_, ?_, ?_⟩ <;> simp [mainRun, h1, MainOutcome.createCalls]

def clientC2 : Client :=
  { issueGet := fun _ => .ok ⟨"10", "selfurl", "PROJ-5", "Task"⟩
    projectGet := fun _ => .error ⟨"", ""⟩
    issueCreate := fun f => .ok ⟨"X-1", f⟩ }

/-- Witness for C2: `"PROJ-5"` resolves to an issue of type `"Task"`. -/
theorem notAnEpic_distinctAbort_witness :
    mainRun clientC2 [] [] "PROJ-5" [⟨"X", some [], ""⟩] = .notAnEpicAbort "PROJ-5" ∧
    (mainRun clientC2 [] [] "PROJ-5" [⟨"X", some [], ""⟩]).createCalls = [] ∧
    mainRun clientC2 [] [] "PROJ-5" [⟨"X", some [], ""⟩] ≠ .panicReqErr ⟨"r", "b"⟩ := by
  have h := notAnEpic_distinctAbort clientC2 [] [] "PROJ-5" [⟨"X", some [], ""⟩]
    ⟨"10", "selfurl", "PROJ-5", "Task"⟩ rfl (by decide)
  exact ⟨h.1, h.2.1, h.2.2 ⟨"r", "b"⟩⟩

/-! ### Empty issueTypes (C1) -/

def projP0 : Project := ⟨"P", []⟩

def clientC1 : Client :=
  { issueGet := fun _ => .error ⟨"", ""⟩
    projectGet := fun _ => .ok projP0
    issueCreate := fun _ => .error ⟨"", ""⟩ }

def tC1a : Ticket := ⟨"P", some [], ""⟩

def tC1b : Ticket := ⟨"Q", some [], ""⟩

def stC1 : RunState :=
  { projectCache := [("P", projP0)]
    summaryBuf := ""
    descriptionBuf := ""
    stderrLog := [.skipNoIssueTypes "P" tC1a]
    calls := [.getProject "P"]
    created := [] }

/-- C1 (divergence): for a ticket whose resolved project has an empty
`issueTypes`, the code does emit the skip diagnostic naming the project and
the ticket, and creates no issue for it — but, the `continue` being absent
(src/main.go line 102 evaluates `project.IssueTypes[0]` right after the
diagnostic), the batch does not move on to the next ticket: it dies with an
index-out-of-range panic, the second ticket never processed. -/
theorem emptyIssueTypes_skipDiagThenPanic :
    createIssues clientC1 [] [] [tC1a, tC1b] ⟨1, "s", "E"⟩
      = .panicked "runtime error: index out of range" stC1 ∧
    stC1.stderrLog = [.skipNoIssueTypes "P" tC1a] ∧
    createCallsOf stC1.calls = [] :=
  ⟨rfl, rfl, rfl⟩

/-! ### Omitted params key (C3) -/

def prC3 : Project := ⟨"P", [⟨"Task"⟩]⟩

def clientC3 : Client :=
  { issueGet := fun _ => .error ⟨"", ""⟩
    projectGet := fun _ => .ok prC3
    issueCreate := fun f => .ok ⟨"P-1", f⟩ }

def ctxC3 : Ctx := ⟨clientC3, [], [], ⟨1, "s", "EP-7"⟩⟩

def stC3 : RunState :=
  { RunState.init with projectCache := [("P", prC3)], calls := [.getProject "P"] }

/-- C3 counterexample: a ticket declaration omitting the `params` key loads
into a ticket whose params map is nil (`none`), and the orchestrator's
injection of the epic key into it does NOT succeed: `injectEpic` is the
nil-map write, and processing the ticket panics with Go's
"assignment to entry in nil map". -/
theorem omittedParams_nilMapPanic :
    loadTickets [⟨"P", none, none⟩] = [⟨"P", none, ""⟩] ∧
    injectEpic ⟨"P", none, ""⟩ ⟨1, "s", "EP-7"⟩ = none ∧
    stepTicket ctxC3 RunState.init ⟨"P", none, ""⟩
      = .panicked "assignment to entry in nil map" stC3 :=
  ⟨rfl, rfl, rfl⟩

/-- C3 amended: a ticket declaration omitting the `params` key loads
without error, leaving the ticket's params a nil map (`none`, which reads
as empty); the orchestrator's subsequent injection of the resolved epic's
key then fails — writing into the nil map panics — rather than succeeding. -/
theorem omittedParams_load_then_panic (d : TicketDecl) (epic : Epic)
    (h : d.params = none) :
    (decodeTicket d).Params = none ∧ injectEpic (decodeTicket d) epic = none := by
  constructor
  · simp [decodeTicket, h]
  · simp [injectEpic, decodeTicket, h]

/-- Witness for the amended C3 at a concrete declaration with no `params`. -/
theorem omittedParams_load_then_panic_witness :
    (decodeTicket ⟨"P", none, none⟩).Params = none ∧
    injectEpic (decodeTicket ⟨"P", none, none⟩) ⟨1, "s", "EP-7"⟩ = none :=
  omittedParams_load_then_panic ⟨"P", none, none⟩ ⟨1, "s", "EP-7"⟩ rfl

/-! ### Witnesses for C4 and C5 -/

def prC4 : Project := ⟨"P", [⟨"Task"⟩]⟩

def clientC4 : Client :=
  { issueGet := fun _ => .error ⟨"", ""⟩
    projectGet := fun _ => .ok prC4
    issueCreate := fun f => .ok ⟨"P-1", f⟩ }

def stC4 : RunState := { RunState.init with projectCache := [("P", prC4)] }

/-- Witness for C4: two tickets sharing project `"P"`, plus a concrete
cache hit returning the cached metadata with no state change. -/
theorem createIssues_getProject_once_witness :
    (projectCallKeys
        (createIssues clientC4 [] [] [⟨"P", some [], ""⟩, ⟨"P", some [], ""⟩]
          ⟨1, "s", "E"⟩).state.calls).Nodup ∧
    cacheFetch clientC4.projectGet stC4 "P" = .ok stC4 prC4 :=
  ⟨(createIssues_getProject_once clientC4 [] []
      [⟨"P", some [], ""⟩, ⟨"P", some [], ""⟩] ⟨1, "s", "E"⟩).1,
    (createIssues_getProject_once clientC4 [] []
      [⟨"P", some [], ""⟩, ⟨"P", some [], ""⟩] ⟨1, "s", "E"⟩).2 stC4 "P" prC4 rfl⟩

def prA5 : Project := ⟨"A", [⟨"Task"⟩]⟩

def errC5 : ReqError := ⟨"GET /rest/api/2/project/X", "transport error"⟩

def epicC5 : Epic := ⟨42, "selfurl", "EP-1"⟩

def clientC5 : Client :=
  { issueGet := fun _ => .error ⟨"", ""⟩
    projectGet := fun key => if key = "A" then .ok prA5 else .error errC5
    issueCreate := fun f => .ok ⟨"A-1", f⟩ }

def ctxC5 : Ctx := ⟨clientC5, [], [], epicC5⟩

def fieldsA5 : IssueFields := ⟨"", "", ⟨"Task"⟩, prA5, none, some epicC5⟩

def stA5 : RunState :=
  { projectCache := [("A", prA5)]
    summaryBuf := ""
    descriptionBuf := ""
    stderrLog := []
    calls := [.getProject "A", .createIssue fieldsA5]
    created := [⟨"A-1", fieldsA5⟩] }

def stX5 : RunState := { stA5 with calls := stA5.calls ++ [.getProject "X"] }

/-- Witness for C5: the spec's mid-batch scenario — the first ticket's issue
is created, `getProject("X")` fails on the second ticket, the batch halts
with that error and the first issue remains created. -/
theorem run_abortOnRemoteFailure_witness :
    runTickets ctxC5 RunState.init [⟨"A", some [], ""⟩, ⟨"X", some [], ""⟩]
      = .reqError errC5 stX5 ∧
    stX5.created = stA5.created :=
  run_abortOnRemoteFailure ctxC5 [⟨"A", some [], ""⟩, ⟨"X", some [], ""⟩] 1
    (by decide) stA5 stX5 errC5 rfl rfl

/-! ### Buffers and payload rendering (C8) -/

theorem assembleFields_Summary (s d : String) (it : IssueType) (p : Project)
    (t : Ticket) (e : Epic) : (assembleFields s d it p t e).Summary = s := by
  by_cases h : t.CustomEpicField = "" <;> simp [assembleFields, h]

theorem assembleFields_Description (s d : String) (it : IssueType) (p : Project)
    (t : Ticket) (e : Epic) : (assembleFields s d it p t e).Description = d := by
  by_cases h : t.CustomEpicField = "" <;> simp [assembleFields, h]

theorem cacheFetch_calls (pg : String → Except ReqError Project)
    (st : RunState) (key : String) :
    (cacheFetch pg st key).state.calls = st.calls ∨
    (cacheFetch pg st key).state.calls = st.calls ++ [.getProject key] := by
  cases hga : getAssoc st.projectCache key with
  | some p => left; simp [cacheFetch, hga, CacheResult.state]
  | none => cases hpg : pg key <;> right <;> simp [cacheFetch, hga, hpg, CacheResult.state]

theorem cacheFetch_bufs (pg : String → Except ReqError Project)
    (st : RunState) (key : String) :
    (cacheFetch pg st key).state.summaryBuf = st.summaryBuf ∧
    (cacheFetch pg st key).state.descriptionBuf = st.descriptionBuf := by
  cases hga : getAssoc st.projectCache key with
  | some p => simp [cacheFetch, hga, CacheResult.state]
  | none => cases hpg : pg key <;> simp [cacheFetch, hga, hpg, CacheResult.state]

/-- C8: one loop iteration starts by resetting both output buffers, so the
step is insensitive to whatever the buffers held after earlier tickets
(first conjunct: stale buffer contents change nothing), and every
`createIssue` payload the step submits — beyond calls already in the trace —
carries exactly the rendering of the two templates against this ticket's
own injected context (second conjunct): no earlier ticket's output can be
present. -/
theorem stepTicket_payload_freshRender (ctx : Ctx) (st : RunState) (t t2 : Ticket)
    (s1 s2 : String) (hinj : injectEpic t ctx.epic = some t2) :
    stepTicket ctx { st with summaryBuf := s1, descriptionBuf := s2 } t
      = stepTicket ctx st t ∧
    ∀ f, RemoteCall.createIssue f ∈ (stepTicket ctx st t).state.calls →
      RemoteCall.createIssue f ∈ st.calls ∨
      (f.Summary = render ctx.summaryTemplate t2 ∧
       f.Description = render ctx.descriptionTemplate t2) := by
  refine ⟨rfl, ?_⟩
  intro f hf
  have hcalls := cacheFetch_calls ctx.client.projectGet
    { st with summaryBuf := "", descriptionBuf := "" } t.Project
  have hbufs := cacheFetch_bufs ctx.client.projectGet
    { st with summaryBuf := "", descriptionBuf := "" } t.Project
  cases hcf : cacheFetch ctx.client.projectGet
      { st with summaryBuf := "", descriptionBuf := "" } t.Project with
  | reqError st1 e =>
      rw [hcf] at hcalls
      simp only [CacheResult.state] at hcalls
      simp only [stepTicket, hcf, StepResult.state] at hf
      left
      rcases hcalls with hc | hc <;> rw [hc] at hf
      · exact hf
      · rcases List.mem_append.mp hf with h | h
        · exact h
        · simp at h
  | ok st1 project =>
      rw [hcf] at hcalls hbufs
      simp only [CacheResult.state] at hcalls hbufs
      have hmem_st1 : RemoteCall.createIssue f ∈ st1.calls →
          RemoteCall.createIssue f ∈ st.calls := by
        intro hm
        rcases hcalls with hc | hc <;> rw [hc] at hm
        · exact hm
        · rcases List.mem_append.mp hm with h | h
          · exact h
          · simp at h
      cases hIT : project.issueTypes with
      | nil =>
          simp only [stepTicket, hcf, hIT, List.isEmpty_nil, StepResult.state] at hf
          simp at hf
          exact Or.inl (hmem_st1 hf)
      | cons it rest =>
          simp only [stepTicket, hcf, hIT, hinj] at hf
          simp only [List.isEmpty_cons] at hf
          split at hf <;>
            simp only [StepResult.state, Bool.false_eq_true, if_false] at hf <;>
            rcases List.mem_append.mp hf with h | h
          · exact Or.inl (hmem_st1 h)
          · right
            simp at h
            subst h
            rw [assembleFields_Summary, assembleFields_Description]
            constructor
            · rw [hbufs.1]
              rfl
            · rw [hbufs.2]
              rfl
          · exact Or.inl (hmem_st1 h)
          · right
            simp at h
            subst h
            rw [assembleFields_Summary, assembleFields_Description]
            constructor
            · rw [hbufs.1]
              rfl
            · rw [hbufs.2]
              rfl

def clientC8 : Client :=
  { issueGet := fun _ => .error ⟨"", ""⟩
    projectGet := fun _ => .ok ⟨"P", [⟨"Task"⟩]⟩
    issueCreate := fun f => .ok ⟨"P-1", f⟩ }

def ctxC8 : Ctx := ⟨clientC8, [.text "S:", .fieldProject], [.indexParams "epic"], ⟨9, "s", "EP-8"⟩⟩

def t2C8 : Ticket := ⟨"P", some [("epic", .str "EP-8")], ""⟩

def fC8 : IssueFields := ⟨"S:P", "EP-8", ⟨"Task"⟩, ⟨"P", [⟨"Task"⟩]⟩, none, some ⟨9, "s", "EP-8"⟩⟩

/-- Witness for C8: stale buffer contents ("STALE"/"LEAK") do not reach the
payload, whose summary and description are the fresh renderings. -/
theorem stepTicket_payload_freshRender_witness :
    stepTicket ctxC8 { RunState.init with summaryBuf := "STALE", descriptionBuf := "LEAK" }
        ⟨"P", some [], ""⟩
      = stepTicket ctxC8 RunState.init ⟨"P", some [], ""⟩ ∧
    (fC8.Summary = render ctxC8.summaryTemplate t2C8 ∧
     fC8.Description = render ctxC8.descriptionTemplate t2C8) := by
  have h := stepTicket_payload_freshRender ctxC8 RunState.init ⟨"P", some [], ""⟩ t2C8
    "STALE" "LEAK" rfl
  refine ⟨h.1, ?_⟩
  have hmem : RemoteCall.createIssue fC8
      ∈ (stepTicket ctxC8 RunState.init ⟨"P", some [], ""⟩).state.calls := by
    have hc : (stepTicket ctxC8 RunState.init ⟨"P", some [], ""⟩).state.calls
        = [.getProject "P", .createIssue fC8] := rfl
    rw [hc]
    exact List.mem_cons_of_mem _ (List.mem_cons_self _ _)
  rcases h.2 fC8 hmem with hl | hr
  · exact absurd hl (by simp [RunState.init])
  · exact hr
